import Mathlib

/-!
Verification development for the FCX-Circus core pipeline
(time-format inference/normalization in `timeutils.py`, the
granule adapter in `campaign_granule.py`, and the geolocation
projector in `converters/point_cloud_converter.py`).

Modelling conventions:
* numpy float64 payloads are embedded as `ℚ`; a C-style cast of a float
  to an integer (as in `.astype("timedelta64[s]")`) truncates toward
  zero and is modelled by `truncSec`; a datetime64 downcast to second
  precision floors and is modelled by `floorSec`.
* absolute instants (`np.datetime64[s]`) are embedded as `ℤ` seconds
  since the Unix epoch; calendar dates appearing in parsing code are
  embedded as explicit year/month/day triples.
* fallible numpy operations (reductions over empty arrays, broadcast
  failures, out-of-range indexing) are modelled with `Option`/`Except`.
-/

deriving instance DecidableEq for Except

/-- C-style float-to-int cast used by `ndarray.astype` on float inputs:
truncation toward zero. -/
def truncSec (q : ℚ) : ℤ := Int.tdiv q.num q.den

/-- datetime64 downcast to a coarser unit: floor division of the tick
count, i.e. truncation toward minus infinity. -/
def floorSec (q : ℚ) : ℤ := Int.fdiv q.num q.den

/-- `np.diff` on a 1-D array: consecutive differences. -/
def np_diff : List ℚ → List ℚ
  | [] => []
  | [_] => []
  | a :: b :: t => (b - a) :: np_diff (b :: t)

/-- `has_wraparound` (timeutils.py:11-14): true when the array drops
backward anywhere, i.e. `np.any(np.diff(time_array) < 0)`. -/
def has_wraparound (l : List ℚ) : Bool := (np_diff l).any (fun d => decide (d < 0))

/-- `np.max` over a 1-D array; fails (ValueError) on an empty array. -/
def np_max : List ℚ → Option ℚ
  | [] => none
  | v :: vs => some (vs.foldl max v)

/-- Cumulative day-shift array of `resolve_time_hours`
(timeutils.py:30-38): entry `j` counts the descents `hr[i+1] < hr[i]`
with `i + 1 ≤ j`.  Auxiliary: carries the previous value and the
accumulated count. -/
def dayShiftsAux : ℚ → ℕ → List ℚ → List ℕ
  | _, _, [] => []
  | prev, acc, x :: xs =>
    let acc' := if x < prev then acc + 1 else acc
    acc' :: dayShiftsAux x acc' xs

/-- Day-shift array for the whole sequence (first entry is 0). -/
def dayShifts : List ℚ → List ℕ
  | [] => []
  | x :: xs => 0 :: dayShiftsAux x 0 xs

/-- `resolve_time_hours` (timeutils.py:16-45): hours-since-midnight plus
a base date, with the midnight-wraparound day offsets applied, converted
to epoch seconds (`base` is the base date's midnight as epoch seconds). -/
def resolve_time_hours (hr : List ℚ) (base : ℤ) : List ℤ :=
  (hr.zip (dayShifts hr)).map (fun p => base + truncSec ((p.1 + 24 * (p.2 : ℚ)) * 3600))

/-- The classification strings produced by `detect_time_var_type`
(timeutils.py:86-150): "datetime64", "hours-since", "seconds-since",
"hours-since-midnight", "seconds-since-midnight", "numeric-time",
"unknown". -/
inductive TimeType where
  | datetime64
  | hoursSince
  | secondsSince
  | hoursSinceMidnight
  | secondsSinceMidnight
  | numericTime
  | unknown
deriving DecidableEq

/-- A raw time DataArray as consumed by the time utilities.
`values` is the numeric payload (when `isDatetime` is true the entries
are datetime64 ticks in seconds, possibly sub-second).  `isNumeric1D`
reflects `values.dtype.kind in {"f","i"} and values.ndim == 1`.
`unitsSince` is the outcome of the `"<hours|seconds> since <ts>"`
units-attribute parse in timeutils.py:112-136: `some (isHours, base)`
exactly when the regex matched, the reference parsed as a datetime64
(`base` = its epoch seconds) and the delta conversion succeeded;
`none` otherwise (no units, malformed units, failed parse). -/
structure TimeVar where
  values : List ℚ
  isDatetime : Bool
  isNumeric1D : Bool
  unitsSince : Option (Bool × ℤ)
deriving DecidableEq

/-- The fields of the dict returned by `detect_time_var_type` that
`normalize_timestamps` consumes (`type`, `base_time`) plus `wrapped`. -/
structure TimeInfo where
  type : TimeType
  baseTime : Option ℤ
  wrapped : Bool
deriving DecidableEq

/-- `detect_time_var_type` (timeutils.py:86-150).  Returns `none` when
the source raises: `np.max` over an empty purely-numeric 1-D array
(timeutils.py:143) is a ValueError. -/
def detect_time_var_type (tv : TimeVar) : Option TimeInfo :=
  if tv.isDatetime then
    some ⟨.datetime64, none, false⟩
  else
    match tv.unitsSince with
    | some (isHours, base) =>
      some ⟨if isHours then .hoursSince else .secondsSince, some base, false⟩
    | none =>
      if tv.isNumeric1D then
        match np_max tv.values with
        | none => none
        | some m =>
          some ⟨if m < 25 then .hoursSinceMidnight
                else if m < 86400 then .secondsSinceMidnight
                else .numericTime,
                none, has_wraparound tv.values⟩
      else
        some ⟨.unknown, none, false⟩

/-- The ValueErrors `normalize_timestamps` can raise
(timeutils.py:173-180), plus the ValueError propagated out of
`detect_time_var_type` on an empty numeric array. -/
inductive TimeErr where
  | missingDateHint
  | unsupportedFormat
  | classifyError
deriving DecidableEq

/-- The `wrap` closure of `normalize_timestamps` (timeutils.py:159-163):
the result array is datetime64[s]-typed (so on re-entry it takes the
datetime branch), with metadata preserved.  The `normalized=True`
attribute is irrelevant to the claims and not modelled. -/
def mkNorm (vals : List ℚ) (tv : TimeVar) : TimeVar :=
  { values := vals, isDatetime := true, isNumeric1D := false, unitsSince := tv.unitsSince }

/-- `normalize_timestamps` (timeutils.py:152-180). `dateHint` is the
optional date hint's midnight as epoch seconds. -/
def normalize_timestamps (tv : TimeVar) (dateHint : Option ℤ) : Except TimeErr TimeVar :=
  match detect_time_var_type tv with
  | none => .error .classifyError
  | some info =>
    if tv.isDatetime then
      .ok (mkNorm (tv.values.map (fun q => ((floorSec q : ℤ) : ℚ))) tv)
    else
      match info.type, info.baseTime with
      | .hoursSince, some b =>
        .ok (mkNorm (tv.values.map (fun v => ((b + truncSec (v * 3600) : ℤ) : ℚ))) tv)
      | .secondsSince, some b =>
        .ok (mkNorm (tv.values.map (fun v => ((b + truncSec v : ℤ) : ℚ))) tv)
      | .hoursSinceMidnight, _ =>
        match dateHint with
        | none => .error .missingDateHint
        | some d =>
          .ok (mkNorm (tv.values.map (fun v => ((d + truncSec (v * 3600) : ℤ) : ℚ))) tv)
      | .secondsSinceMidnight, _ =>
        match dateHint with
        | none => .error .missingDateHint
        | some d =>
          .ok (mkNorm (tv.values.map (fun v => ((d + truncSec v : ℤ) : ℚ))) tv)
      | _, _ => .error .unsupportedFormat

/-- A calendar date as produced by `np.datetime64("YYYY-MM-DD")`. -/
structure Date where
  year : ℕ
  month : ℕ
  day : ℕ
deriving DecidableEq

/-- Gregorian leap-year rule used by datetime64's proleptic calendar. -/
def isLeapYear (y : ℕ) : Bool := y % 4 = 0 && (y % 100 ≠ 0 || y % 400 = 0)

/-- Days in a month of the proleptic Gregorian calendar. -/
def daysInMonth (y m : ℕ) : ℕ :=
  if m = 2 then (if isLeapYear y then 29 else 28)
  else if m = 4 ∨ m = 6 ∨ m = 9 ∨ m = 11 then 30
  else 31

/-- `np.datetime64` validity check for a year/month/day triple: the
constructor raises ValueError on an out-of-range month or day. -/
def isValidDate (y m d : ℕ) : Bool :=
  1 ≤ m && m ≤ 12 && 1 ≤ d && d ≤ daysInMonth y m

/-- Numeric value of a digit character list (most significant first);
assumes all characters are digits. -/
def digitsToNat (cs : List Char) : ℕ :=
  cs.foldl (fun acc c => acc * 10 + (c.toNat - '0'.toNat)) 0

/-- `np.datetime64` applied to a string: succeeds exactly on a
well-formed `YYYY-MM-DD` string holding a valid calendar date.
(The source only ever feeds it f-strings of that intended shape;
malformed slicings such as `"2017--0-5-17"` fail.) -/
def npDatetime64 (cs : List Char) : Option Date :=
  match cs with
  | [y1, y2, y3, y4, s1, m1, m2, s2, d1, d2] =>
    if [y1, y2, y3, y4, m1, m2, d1, d2].all Char.isDigit ∧ s1 = '-' ∧ s2 = '-' then
      let y := digitsToNat [y1, y2, y3, y4]
      let m := digitsToNat [m1, m2]
      let d := digitsToNat [d1, d2]
      if isValidDate y m d then some ⟨y, m, d⟩ else none
    else none
  | _ => none

/-- The f-string `f"{s[:4]}-{s[4:6]}-{s[6:]}"` applied to a character
list (timeutils.py:59,74,80). -/
def isoSlice (cs : List Char) : List Char :=
  cs.take 4 ++ '-' :: ((cs.drop 4).take 2 ++ '-' :: cs.drop 6)

/-- One attempt of the regex `((?:20|19)\d{6})` at the current
position: the literal prefix 20 or 19 followed by six digits. -/
def matchRunAt (cs : List Char) : Option (List Char) :=
  match cs with
  | c0 :: c1 :: rest =>
    if ((c0 = '2' ∧ c1 = '0') ∨ (c0 = '1' ∧ c1 = '9')) ∧
        rest.length ≥ 6 ∧ (rest.take 6).all Char.isDigit then
      some (c0 :: c1 :: rest.take 6)
    else none
  | _ => none

/-- `re.search(r"((?:20|19)\d{6})", filename)` (timeutils.py:71):
leftmost eight-character date run. -/
def searchRun : List Char → Option (List Char)
  | [] => none
  | c :: cs =>
    match matchRunAt (c :: cs) with
    | some r => some r
    | none => searchRun cs

/-- `re.match(r"^\d{4}-\d{2}-\d{2}$", s)` (timeutils.py:62), applied in
the source to an already digit-stripped string. -/
def matchesDashedDigits (cs : List Char) : Bool :=
  match cs with
  | [y1, y2, y3, y4, s1, m1, m2, s2, d1, d2] =>
    [y1, y2, y3, y4, m1, m2, d1, d2].all Char.isDigit && s1 = '-' && s2 = '-'
  | _ => false

/-- `re.search(r"^((?:20|19)\d{2}-\d{2}-\d{2})$", filename)`
(timeutils.py:77): the whole filename is a dashed date whose year
starts with 20 or 19. -/
def matchesDashedFull (cs : List Char) : Bool :=
  match cs with
  | [y1, y2, y3, y4, s1, m1, m2, s2, d1, d2] =>
    ((y1 = '2' && y2 = '0') || (y1 = '1' && y2 = '9')) &&
      [y3, y4, m1, m2, d1, d2].all Char.isDigit && s1 = '-' && s2 = '-'
  | _ => false

/-- The attribute mapping as consumed by the core: the only keys read
are `date` (by `get_date_hint`) and `filename` (by
`CampaignGranule.__init__`), both strings when present. -/
structure Attrs where
  date : Option String
  filename : Option String
deriving DecidableEq

/-- `get_date_hint` (timeutils.py:47-84).  The `Except Unit` layer
records the one raise site the function does not guard: if the
digit-stripped `date` attribute had a length other than 8 yet matched
`^\d{4}-\d{2}-\d{2}$`, the source would crash unpacking `m.groups()`
(an empty tuple) at timeutils.py:63.  That branch is proved
unreachable below (the stripped string has no dashes). -/
def get_date_hint (attrs : Attrs) (filename : String) : Except Unit (Option Date) := do
  let viaAttrs : Option Date ←
    match attrs.date with
    | none => pure none
    | some s =>
      let ds := s.data.filter Char.isDigit
      if ds.length = 8 then
        pure (npDatetime64 (isoSlice ds))
      else if matchesDashedDigits ds then
        .error ()
      else
        pure none
  match viaAttrs with
  | some d => pure (some d)
  | none =>
    match searchRun filename.data with
    | some run => pure (npDatetime64 (isoSlice run))
    | none =>
      if matchesDashedFull filename.data then
        pure (npDatetime64 (isoSlice filename.data))
      else
        pure none

/-- `os.path.basename` for POSIX paths: the part after the last `/`. -/
def basename (s : String) : String := ⟨(s.data.reverse.takeWhile (· ≠ '/')).reverse⟩

/-- The filename chosen for date-hint extraction at
`CampaignGranule.__init__` (campaign_granule.py:50-55): the basename of
the `filename` attribute when present, otherwise the basename of the
constructor's file path. -/
def granuleFilename (attrs : Attrs) (filePath : String) : String :=
  match attrs.filename with
  | some f => basename f
  | none => basename filePath

/-- The date hint resolved at adapter construction
(campaign_granule.py:57). -/
def granuleDateHint (attrs : Attrs) (filePath : String) : Except Unit (Option Date) :=
  get_date_hint attrs (granuleFilename attrs filePath)

/-- A float64 cell of the reflectivity grid: `some q` for a finite
value, `none` for NaN/±inf (`np.isfinite` is false). -/
abbrev EF := Option ℚ

/-- The Python exceptions `PointCloudConverter.convert` can raise:
`ds[k]` on a missing variable (KeyError), `.values` on the `None`
returned when both `height` and `alt` are missing (AttributeError),
an elementwise operation on broadcast-incompatible lengths
(ValueError), and indexing with an out-of-range index array or a
wrong-length boolean mask (IndexError). -/
inductive PyErr where
  | keyError (name : String)
  | attributeError
  | broadcastError
  | indexError
deriving DecidableEq

/-- A numpy elementwise binary operation on two 1-D arrays with
broadcasting: equal lengths zip; a length-1 operand is stretched;
anything else raises. -/
def bop (f : α → β → γ) (a : List α) (b : List β) : Option (List γ) :=
  if a.length = b.length then some (List.zipWith f a b)
  else
    match a, b with
    | [x], b => some (b.map (fun y => f x y))
    | a, [y] => some (a.map (fun x => f x y))
    | _, _ => none

/-- `np.repeat(a, n)`: each element repeated `n` times consecutively. -/
def np_repeat (a : List α) (n : ℕ) : List α := a.flatMap (fun x => List.replicate n x)

/-- `np.tile(a, n)`: the whole array repeated `n` times. -/
def np_tile (a : List α) (n : ℕ) : List α := (List.replicate n a).flatten

/-- Index comparison used to model `np.argsort(time)`
(point_cloud_converter.py:68): sort the index range by value.  The
model breaks ties by original index (a stable order); numpy's default
`kind="quicksort"` leaves the tie order unspecified — see claim C2. -/
def idxLe (t : List ℤ) (i j : ℕ) : Prop :=
  t.getD i 0 < t.getD j 0 ∨ (t.getD i 0 = t.getD j 0 ∧ i ≤ j)

instance (t : List ℤ) : DecidableRel (idxLe t) := fun i j => by
  unfold idxLe; infer_instance

/-- `np.argsort` on a 1-D int64 array. -/
def argsort (t : List ℤ) : List ℕ := List.insertionSort (idxLe t) (List.range t.length)

/-- numpy integer-array (fancy) indexing `a[idx]`; IndexError when an
index is out of range. -/
def fancyIndex [Inhabited α] (l : List α) (idx : List ℕ) : Option (List α) :=
  if idx.all (fun i => decide (i < l.length)) then
    some (idx.map (fun i => l.getD i default))
  else none

/-- numpy boolean-mask indexing `a[mask]`; IndexError when the mask
length differs from the array length. -/
def maskFilter (l : List α) (m : List Bool) : Option (List α) :=
  if l.length = m.length then some (((l.zip m).filter (fun p => p.2)).map (fun p => p.1))
  else none

/-- The granule dataset as consumed by `PointCloudConverter.convert`:
the named variables it reads (absent → `none`) plus the adapter's
already-normalized time (`normal_time.astype("datetime64[s]")`,
embedded as epoch seconds).  `ref` is the 2-D reflectivity grid,
row-major with one row per along-track sample. -/
structure GranuleDS where
  normalTime : List ℤ
  ref : Option (List (List EF))
  lat : Option (List ℚ)
  lon : Option (List ℚ)
  height : Option (List ℚ)
  alt : Option (List ℚ)
  roll : Option (List ℚ)
  pitch : Option (List ℚ)
  head : Option (List ℚ)
  range : Option (List ℚ)
deriving DecidableEq

/-- The five flattened, projected, not-yet-sorted arrays of
`convert` as they stand after point_cloud_converter.py:66. -/
structure FlatArrays where
  time : List ℤ
  lon : List ℚ
  lat : List ℚ
  alt : List ℚ
  ref : List EF
deriving DecidableEq

/-- `PointCloud` (point_cloud_converter.py:18-27): the five parallel
sequences.  The granule back-reference and the constant attribute
tags are not modelled. -/
structure PointCloud where
  lat : List ℚ
  lon : List ℚ
  alt : List ℚ
  ref : List EF
  time : List ℤ
deriving DecidableEq

/-- Lift a fallible numpy operation into the converter's error monad. -/
def orErr (o : Option β) (e : PyErr) : Except PyErr β :=
  match o with
  | some b => .ok b
  | none => .error e

/-- `ds[k]`: KeyError when the variable is absent. -/
def reqVar (o : Option β) (name : String) : Except PyErr β :=
  match o with
  | some b => .ok b
  | none => .error (.keyError name)

/-- `ds.get("height", ds.get("alt")).values`
(point_cloud_converter.py:41): `height` first, then `alt`; when both
are absent `.values` on `None` raises AttributeError. -/
def getAltVar (g : GranuleDS) : Except PyErr (List ℚ) :=
  match g.height with
  | some v => .ok v
  | none =>
    match g.alt with
    | some v => .ok v
    | none => .error .attributeError

/-- Lines 32-66 of `PointCloudConverter.convert`: variable extraction,
per-bin replication, the down-vector, slant-range scaling and the
displacement application, producing the flat parallel arrays.

The transcendentals are parameters: `sd q`/`cd q` stand for the
composites `np.sin(q * np.pi / 180)`/`np.cos(q * np.pi / 180)` (the
degree-to-radian conversion of lines 42-44 and 60 folded in, since π is
not rational); the algebraic structure of `down_vector`
(point_cloud_converter.py:11-16, inlined here to thread broadcast
failures) and of the scaling is kept verbatim.  The real-valued
geometry itself is verified separately on `down_vector` /
`projectSample` below. -/
def buildFlatArrays (sd cd : ℚ → ℚ) (g : GranuleDS) : Except PyErr FlatArrays := do
  let time_unix := g.normalTime
  let ref ← reqVar g.ref "ref"
  let lat0 ← reqVar g.lat "lat"
  let lon0 ← reqVar g.lon "lon"
  let alt0 ← getAltVar g
  let roll0 ← reqVar g.roll "roll"
  let pitch0 ← reqVar g.pitch "pitch"
  let head0 ← reqVar g.head "head"
  let range0 ← reqVar g.range "range"
  let numCol := ref.length
  let numRow := (ref.headD []).length
  let time := np_repeat time_unix numRow
  let lon1 := np_repeat lon0 numRow
  let lat1 := np_repeat lat0 numRow
  let alt1 := np_repeat alt0 numRow
  let roll1 := np_repeat roll0 numRow
  let pitch1 := np_repeat pitch0 numRow
  let head1 := np_repeat head0 numRow
  let rng := np_tile range0 numCol
  let refF := ref.flatten
  let x1 ← orErr (bop (· * ·) (roll1.map sd) (head1.map cd)) .broadcastError
  let x2 ← orErr (bop (· * ·) (roll1.map cd) (pitch1.map sd)) .broadcastError
  let x3 ← orErr (bop (· * ·) x2 (head1.map sd)) .broadcastError
  let x ← orErr (bop (· + ·) x1 x3) .broadcastError
  let y1 ← orErr (bop (· * ·) ((roll1.map sd).map Neg.neg) (head1.map sd)) .broadcastError
  let y2 ← orErr (bop (· * ·) (roll1.map cd) (pitch1.map sd)) .broadcastError
  let y3 ← orErr (bop (· * ·) y2 (head1.map cd)) .broadcastError
  let y ← orErr (bop (· + ·) y1 y3) .broadcastError
  let z0 ← orErr (bop (· * ·) ((roll1.map cd).map Neg.neg) (pitch1.map cd)) .broadcastError
  let dLon ← orErr (bop (· / ·) rng (lat1.map (fun q => 111000 * cd q))) .broadcastError
  let x' ← orErr (bop (· * ·) x dLon) .broadcastError
  let y' ← orErr (bop (· * ·) y (rng.map (· / 111000))) .broadcastError
  let z' ← orErr (bop (· * ·) z0 rng) .broadcastError
  let lonF ← orErr (bop (· + ·) (x'.map Neg.neg) lon1) .broadcastError
  let latF ← orErr (bop (· + ·) (y'.map Neg.neg) lat1) .broadcastError
  let altF ← orErr (bop (· + ·) z' alt1) .broadcastError
  pure ⟨time, lonF, latF, altF, refF⟩

/-- Lines 68-93 of `PointCloudConverter.convert`: argsort by time,
reorder all five arrays, mask to finite reflectivity and positive
altitude, and package the `PointCloud`. -/
def sortFilterPack (fa : FlatArrays) : Except PyErr PointCloud := do
  let idx := argsort fa.time
  let lon ← orErr (fancyIndex fa.lon idx) .indexError
  let lat ← orErr (fancyIndex fa.lat idx) .indexError
  let alt ← orErr (fancyIndex fa.alt idx) .indexError
  let ref ← orErr (fancyIndex fa.ref idx) .indexError
  let time ← orErr (fancyIndex fa.time idx) .indexError
  let m ← orErr (bop (· && ·) (ref.map Option.isSome)
    (alt.map (fun a => decide (0 < a)))) .broadcastError
  let lon ← orErr (maskFilter lon m) .indexError
  let lat ← orErr (maskFilter lat m) .indexError
  let alt ← orErr (maskFilter alt m) .indexError
  let ref ← orErr (maskFilter ref m) .indexError
  let time ← orErr (maskFilter time m) .indexError
  pure ⟨lat, lon, alt, ref, time⟩

/-- `PointCloudConverter.convert` (point_cloud_converter.py:31-93). -/
def convert (sd cd : ℚ → ℚ) (g : GranuleDS) : Except PyErr PointCloud :=
  buildFlatArrays sd cd g >>= sortFilterPack

/-- `down_vector` (point_cloud_converter.py:11-16) over the reals. -/
noncomputable def down_vector (roll pitch head : ℝ) : ℝ × ℝ × ℝ :=
  (Real.sin roll * Real.cos head + Real.cos roll * Real.sin pitch * Real.sin head,
   -Real.sin roll * Real.sin head + Real.cos roll * Real.sin pitch * Real.cos head,
   -Real.cos roll * Real.cos pitch)

/-- One sample of the projection of `convert` (lines 42-44 and 59-66)
over the reals: attitude in degrees is converted to radians, the
down-vector is scaled by slant range (with the meters-to-degrees
factors) and applied to the aircraft position. -/
noncomputable def projectSample (roll pitch head lat lon alt rng : ℝ) : ℝ × ℝ × ℝ :=
  let r := roll * Real.pi / 180
  let p := pitch * Real.pi / 180
  let h := head * Real.pi / 180
  let v := down_vector r p h
  let x := v.1 * (rng / (111000 * Real.cos (lat * Real.pi / 180)))
  let y := v.2.1 * (rng / 111000)
  let z := v.2.2 * rng
  (-x + lon, -y + lat, z + alt)

/-- The concrete granule witnessing silent shape-mismatch acceptance
(claim C8): the reflectivity grid has 2 along-track samples and 1 range
bin, every per-sample vector has length 2 — except `lat`, which has
length 1 and therefore mismatches the grid's first dimension. -/
def granuleLatMismatch : GranuleDS :=
  { normalTime := [10, 20]
    ref := some [[some 1], [some 2]]
    lat := some [45]
    lon := some [100, 101]
    height := some [1000, 1000]
    alt := none
    roll := some [0, 0]
    pitch := some [0, 0]
    head := some [0, 0]
    range := some [7] }

/-- Spec-side predicate: the sequence has a backward step — some value
is smaller than its predecessor. -/
def BackStep (l : List ℚ) : Prop :=
  ∃ i, i + 1 < l.length ∧ l.getD (i + 1) 0 < l.getD i 0

section Lemmas

/-- `np_max` is `List.max?`. -/
theorem np_max_eq_max? (l : List ℚ) : np_max l = l.max? := by
  cases l <;> rfl

/-- `orErr` succeeds exactly when the underlying operation did. -/
theorem orErr_ok {β : Type} (o : Option β) (e : PyErr) (b : β) :
    orErr o e = .ok b ↔ o = some b := by
  cases o <;> simp [orErr]

/-- Success of an `Except` bind splits into successes of both stages. -/
theorem exceptBind_ok {ε α β : Type} (x : Except ε α) (f : α → Except ε β) (b : β) :
    (x >>= f) = .ok b ↔ ∃ a, x = .ok a ∧ f a = .ok b := by
  cases x <;> simp [Bind.bind, Except.bind]

end Lemmas

/-- Claim C5: for every sample the projector computes the down-vector
x = sin(r)cos(h) + cos(r)sin(p)sin(h), y = -sin(r)sin(h) +
cos(r)sin(p)cos(h), z = -cos(r)cos(p) from the attitude converted to
radians, scales it as dx = range·x/(111000·cos(lat_rad)),
dy = range·y/111000, dz = range·z, and applies lon' = lon - dx,
lat' = lat - dy, alt' = alt + dz; at roll = pitch = heading = 0 the
down-vector is (0, 0, -1). -/
theorem claim5_projection_formulas :
    (∀ r p h : ℝ, down_vector r p h =
      (Real.sin r * Real.cos h + Real.cos r * Real.sin p * Real.sin h,
       -Real.sin r * Real.sin h + Real.cos r * Real.sin p * Real.cos h,
       -Real.cos r * Real.cos p)) ∧
    (∀ roll pitch head lat lon alt rng : ℝ,
      projectSample roll pitch head lat lon alt rng =
        (lon - rng * (down_vector (roll * Real.pi / 180) (pitch * Real.pi / 180)
            (head * Real.pi / 180)).1 / (111000 * Real.cos (lat * Real.pi / 180)),
         lat - rng * (down_vector (roll * Real.pi / 180) (pitch * Real.pi / 180)
            (head * Real.pi / 180)).2.1 / 111000,
         alt + rng * (down_vector (roll * Real.pi / 180) (pitch * Real.pi / 180)
            (head * Real.pi / 180)).2.2)) ∧
    down_vector 0 0 0 = (0, 0, -1) := by
  refine ⟨fun r p h => rfl, fun roll pitch head lat lon alt rng => ?_, ?_⟩
  · simp only [projectSample, down_vector, Prod.mk.injEq]
    refine ⟨by ring, by ring, by ring⟩
  · simp [down_vector]

/-- The stripped `date` attribute consists of digits only, so the dead
`^\d{4}-\d{2}-\d{2}$` branch of `get_date_hint` (whose body would
crash unpacking the groupless match) can never be taken. -/
theorem matchesDashedDigits_filter (l : List Char) :
    matchesDashedDigits (l.filter Char.isDigit) = false := by
  unfold matchesDashedDigits
  split
  · rename_i y1 y2 y3 y4 s1 m1 m2 s2 d1 d2 heq
    have hs1 : s1 ∈ l.filter Char.isDigit := by rw [heq]; simp
    have : s1.isDigit := (List.mem_filter.mp hs1).2
    have hne : s1 ≠ '-' := by
      intro h; rw [h] at this; simp [Char.isDigit] at this
    simp [hne]
  · rfl

/-- Claim C7: `get_date_hint` never raises; the attribute strategy has
priority over the filename strategy; and the three reference examples
evaluate as specified. -/
theorem claim7_date_hint_extractor :
    (∀ (attrs : Attrs) (fn : String), ∃ r, get_date_hint attrs fn = .ok r) ∧
    (∀ (attrs : Attrs) (fn : String) (s : String) (d : Date),
      attrs.date = some s →
      (s.data.filter Char.isDigit).length = 8 →
      npDatetime64 (isoSlice (s.data.filter Char.isDigit)) = some d →
      get_date_hint attrs fn = .ok (some d)) ∧
    get_date_hint ⟨none, none⟩ "20170517_flight.nc" = .ok (some ⟨2017, 5, 17⟩) ∧
    get_date_hint ⟨some "2017-05-17", none⟩ "flight.nc" = .ok (some ⟨2017, 5, 17⟩) ∧
    get_date_hint ⟨none, none⟩ "flight.nc" = .ok none := by
  refine ⟨?_, ?_, by decide, by decide, by decide⟩
  · intro attrs fn
    unfold get_date_hint
    rcases attrs with ⟨date, filename⟩
    cases date with
    | none =>
      simp only [bind, Except.bind, pure, Except.pure]
      cases searchRun fn.data <;> simp <;> split <;> simp
    | some s =>
      simp only [bind, Except.bind, pure, Except.pure, matchesDashedDigits_filter]
      split
      · cases npDatetime64 (isoSlice (s.data.filter Char.isDigit)) with
        | none => cases searchRun fn.data <;> simp <;> split <;> simp
        | some d => simp
      · simp only [Bool.false_eq_true, if_false]
        cases searchRun fn.data <;> simp <;> split <;> simp
  · intro attrs fn s d hdate hlen hparse
    unfold get_date_hint
    rw [hdate]
    simp [bind, Except.bind, pure, Except.pure, hlen, hparse]

/-- Claim C10: at adapter construction the filename used for date-hint
extraction is the basename of the `filename` attribute whenever that
attribute is present (so the resolved date hint does not depend on the
constructor path at all), and only otherwise the basename of the
constructor path; concretely, a dated `filename` attribute beats a
date embedded in the constructor path. -/
theorem claim10_filename_precedence :
    (∀ (attrs : Attrs) (p f : String), attrs.filename = some f →
      granuleFilename attrs p = basename f ∧
      granuleDateHint attrs p = get_date_hint attrs (basename f)) ∧
    (∀ (attrs : Attrs) (p : String), attrs.filename = none →
      granuleFilename attrs p = basename p) ∧
    granuleDateHint ⟨none, some "/data/20170517_flight.nc"⟩ "/run/19990101_input.nc" =
      .ok (some ⟨2017, 5, 17⟩) := by
  refine ⟨?_, ?_, by decide⟩
  · intro attrs p f h
    constructor
    · simp [granuleFilename, h]
    · simp [granuleDateHint, granuleFilename, h]
  · intro attrs p h
    simp [granuleFilename, h]

/-- Witness for claim C7 at concrete inputs: totality on an arbitrary
pair, and priority of a parsed `date` attribute over a filename that
itself carries a different date. -/
theorem claim7_witness :
    (∃ r, get_date_hint ⟨some "bad-date", some "x"⟩ "junk.nc" = .ok r) ∧
    get_date_hint ⟨some "2017-05-17", none⟩ "19990101_other.nc" = .ok (some ⟨2017, 5, 17⟩) := by
  constructor
  · exact claim7_date_hint_extractor.1 ⟨some "bad-date", some "x"⟩ "junk.nc"
  · exact claim7_date_hint_extractor.2.1 ⟨some "2017-05-17", none⟩ "19990101_other.nc"
      "2017-05-17" ⟨2017, 5, 17⟩ rfl (by decide) (by decide)

/-- Witness for claim C10 at concrete inputs. -/
theorem claim10_witness :
    granuleFilename ⟨none, some "/data/a.nc"⟩ "/run/b.nc" = basename "/data/a.nc" ∧
    granuleDateHint ⟨none, some "/data/a.nc"⟩ "/run/b.nc" =
      get_date_hint ⟨none, some "/data/a.nc"⟩ (basename "/data/a.nc") ∧
    granuleFilename ⟨none, none⟩ "/run/b.nc" = basename "/run/b.nc" := by
  refine ⟨?_, ?_, ?_⟩
  · exact (claim10_filename_precedence.1 ⟨none, some "/data/a.nc"⟩ "/run/b.nc" "/data/a.nc" rfl).1
  · exact (claim10_filename_precedence.1 ⟨none, some "/data/a.nc"⟩ "/run/b.nc" "/data/a.nc" rfl).2
  · exact claim10_filename_precedence.2.1 ⟨none, none⟩ "/run/b.nc" rfl

/-- `floorSec` is the identity on integral rationals. -/
theorem floorSec_intCast (n : ℤ) : floorSec ((n : ℤ) : ℚ) = n := by
  simp [floorSec, Rat.num_intCast, Rat.den_intCast]

/-- Claim C9: normalization is idempotent on datetime64-typed input —
the first pass truncates to second precision, a second pass leaves the
values unchanged. -/
theorem claim9_idempotent (tv : TimeVar) (h₁ h₂ : Option ℤ) (out : TimeVar)
    (hdt : tv.isDatetime = true) (hok : normalize_timestamps tv h₁ = .ok out) :
    ∃ out₂, normalize_timestamps out h₂ = .ok out₂ ∧ out₂.values = out.values := by
  have hdet : detect_time_var_type tv = some ⟨.datetime64, none, false⟩ := by
    simp [detect_time_var_type, hdt]
  rw [normalize_timestamps.eq_def, hdet] at hok
  simp only [hdt, if_true] at hok
  have hout : out = mkNorm (tv.values.map (fun q => ((floorSec q : ℤ) : ℚ))) tv := by
    cases hok; rfl
  subst hout
  refine ⟨mkNorm ((tv.values.map (fun q => ((floorSec q : ℤ) : ℚ))).map
      (fun q => ((floorSec q : ℤ) : ℚ))) (mkNorm (tv.values.map (fun q => ((floorSec q : ℤ) : ℚ))) tv),
    ?_, ?_⟩
  · rw [normalize_timestamps.eq_def]
    have hd2 : detect_time_var_type (mkNorm (tv.values.map (fun q => ((floorSec q : ℤ) : ℚ))) tv) =
        some ⟨.datetime64, none, false⟩ := by
      simp [detect_time_var_type, mkNorm]
    rw [hd2]
    simp [mkNorm]
  · simp only [mkNorm, List.map_map]
    refine List.map_congr_left ?_
    intro a _
    simp [Function.comp, floorSec_intCast]

/-- Witness for claim C9: a concrete datetime64 input with sub-second
ticks normalizes to whole seconds once and is then a fixed point. -/
theorem claim9_witness :
    ∃ out₂, normalize_timestamps (mkNorm [(3 : ℚ), 7] ⟨[], true, false, none⟩) none = .ok out₂ ∧
      out₂.values = (mkNorm [(3 : ℚ), 7] ⟨[], true, false, none⟩).values := by
  have h := claim9_idempotent ⟨[(7 : ℚ)/2, 7], true, false, none⟩ none none
    (mkNorm [(3 : ℚ), 7] ⟨[], true, false, none⟩) rfl
  refine h ?_
  rw [normalize_timestamps.eq_def]
  norm_num [detect_time_var_type, mkNorm, floorSec, Int.fdiv]

/-- Claim C1 (refuted by the code): for the hours-since-midnight input
[23.9, 0.1, 0.5] with a present date hint, `normalize_timestamps` — the
normalization entry point actually invoked by the adapter — adds the
raw values to the hint's midnight with NO day-offset correction,
producing the non-monotonic [23:54:00, 00:06:00, 00:30:00] of day 0;
the rollover correction the claim describes lives only in the never
called `resolve_time_hours`, which on the same input does produce
[day0 23:54:00, day1 00:06:00, day1 00:30:00].  The two disagree at
index 1 (and 2). -/
theorem claim1_rollover_not_applied (b : ℤ) :
    normalize_timestamps ⟨[239/10, 1/10, 1/2], false, true, none⟩ (some b) =
      .ok ⟨[((b + 86040 : ℤ) : ℚ), ((b + 360 : ℤ) : ℚ), ((b + 1800 : ℤ) : ℚ)],
        true, false, none⟩ ∧
    resolve_time_hours [239/10, 1/10, 1/2] b = [b + 86040, b + 86760, b + 88200] ∧
    (b + 360 : ℤ) ≠ b + 86760 := by
  have hdet : detect_time_var_type ⟨[239/10, 1/10, 1/2], false, true, none⟩ =
      some ⟨.hoursSinceMidnight, none, true⟩ := by
    norm_num [detect_time_var_type, np_max, max_def, has_wraparound, np_diff]
  refine ⟨?_, ?_, by omega⟩
  · rw [normalize_timestamps.eq_def, hdet]
    norm_num [mkNorm, truncSec]
  · norm_num [resolve_time_hours, dayShifts, dayShiftsAux, truncSec]

/-- Claim C4: `normalize_timestamps` raises the missing-date-hint error
iff the classification is hours- or seconds-since-midnight and the hint
is absent, raises the unsupported-format error iff the classification
is numeric-time or unknown (the spec's NumericUnrecognized), and in
every other classified case returns a normalized sequence. -/
theorem claim4_error_conditions (tv : TimeVar) (hint : Option ℤ) (info : TimeInfo)
    (hdet : detect_time_var_type tv = some info) :
    (normalize_timestamps tv hint = .error .missingDateHint ↔
      ((info.type = .hoursSinceMidnight ∨ info.type = .secondsSinceMidnight) ∧ hint = none)) ∧
    (normalize_timestamps tv hint = .error .unsupportedFormat ↔
      (info.type = .numericTime ∨ info.type = .unknown)) ∧
    (¬((info.type = .hoursSinceMidnight ∨ info.type = .secondsSinceMidnight) ∧ hint = none) →
      ¬(info.type = .numericTime ∨ info.type = .unknown) →
      ∃ out, normalize_timestamps tv hint = .ok out) := by
  rcases tv with ⟨vals, isDt, isNum, us⟩
  rw [normalize_timestamps.eq_def, hdet]
  cases isDt with
  | true =>
    have hinfo : info = ⟨.datetime64, none, false⟩ := by
      simp [detect_time_var_type] at hdet; exact hdet.symm
    subst hinfo
    simp
  | false =>
    cases us with
    | some p =>
      obtain ⟨ih, b⟩ := p
      have hinfo : info = ⟨if ih then .hoursSince else .secondsSince, some b, false⟩ := by
        simp [detect_time_var_type] at hdet; exact hdet.symm
      subst hinfo
      cases ih <;> simp
    | none =>
      cases isNum with
      | false =>
        have hinfo : info = ⟨.unknown, none, false⟩ := by
          simp [detect_time_var_type] at hdet; exact hdet.symm
        subst hinfo
        simp
      | true =>
        cases hmax : np_max vals with
        | none => simp [detect_time_var_type, hmax] at hdet
        | some m =>
          have hinfo : info = ⟨if m < 25 then .hoursSinceMidnight
              else if m < 86400 then .secondsSinceMidnight else .numericTime,
              none, has_wraparound vals⟩ := by
            simp [detect_time_var_type, hmax] at hdet; exact hdet.symm
          subst hinfo
          by_cases h25 : m < 25
          · simp only [if_pos h25]
            cases hint <;> simp
          · by_cases h86 : m < 86400
            · simp only [if_neg h25, if_pos h86]
              cases hint <;> simp
            · simp only [if_neg h25, if_neg h86]
              simp

/-- Witness for claim C4: a seconds-since-midnight sequence with no
hint raises missing-date-hint; an out-of-range numeric sequence raises
unsupported-format; the same seconds sequence with a hint succeeds. -/
theorem claim4_witness :
    normalize_timestamps ⟨[30000], false, true, none⟩ none = .error .missingDateHint ∧
    normalize_timestamps ⟨[100000], false, true, none⟩ none = .error .unsupportedFormat ∧
    ∃ out, normalize_timestamps ⟨[30000], false, true, none⟩ (some 0) = .ok out := by
  have hdet1 : detect_time_var_type ⟨[30000], false, true, none⟩ =
      some ⟨.secondsSinceMidnight, none, false⟩ := by
    norm_num [detect_time_var_type, np_max, has_wraparound, np_diff]
  have hdet2 : detect_time_var_type ⟨[100000], false, true, none⟩ =
      some ⟨.numericTime, none, false⟩ := by
    norm_num [detect_time_var_type, np_max, has_wraparound, np_diff]
  refine ⟨(claim4_error_conditions _ none _ hdet1).1.mpr ⟨Or.inr rfl, rfl⟩,
    (claim4_error_conditions _ none _ hdet2).2.1.mpr (Or.inl rfl),
    (claim4_error_conditions _ (some 0) _ hdet1).2.2 (by simp) (by simp)⟩

/-- The running maximum is below `c` iff every element (and the seed)
is. -/
theorem foldl_max_lt_iff (c : ℚ) :
    ∀ (vs : List ℚ) (v : ℚ), vs.foldl max v < c ↔ (v < c ∧ ∀ x ∈ vs, x < c) := by
  intro vs
  induction vs with
  | nil => intro v; simp
  | cons x xs ih =>
    intro v
    rw [List.foldl_cons, ih (max v x)]
    simp [max_lt_iff, and_assoc]

/-- The running maximum is one of the seed or the elements. -/
theorem foldl_max_mem :
    ∀ (vs : List ℚ) (v : ℚ), vs.foldl max v ∈ v :: vs := by
  intro vs
  induction vs with
  | nil => intro v; simp
  | cons x xs ih =>
    intro v
    rw [List.foldl_cons]
    have h := ih (max v x)
    rcases List.mem_cons.mp h with h' | h'
    · rw [h']
      rcases max_choice v x with hm | hm <;> rw [hm] <;> simp
    · simp [h']

/-- The running maximum bounds the seed and every element. -/
theorem le_foldl_max :
    ∀ (vs : List ℚ) (v x : ℚ), x ∈ v :: vs → x ≤ vs.foldl max v := by
  intro vs
  induction vs with
  | nil => intro v x hx; simp at hx; simp [hx]
  | cons y ys ih =>
    intro v x hx
    rw [List.foldl_cons]
    rcases List.mem_cons.mp hx with rfl | hx'
    · exact le_trans (le_max_left x y) (ih _ _ (List.mem_cons_self _ _))
    · rcases List.mem_cons.mp hx' with rfl | hx''
      · exact le_trans (le_max_right v x) (ih _ _ (List.mem_cons_self _ _))
      · exact ih _ _ (List.mem_cons.mpr (Or.inr hx''))

/-- `has_wraparound` detects exactly the existence of a backward step. -/
theorem has_wraparound_iff :
    ∀ l : List ℚ, has_wraparound l = true ↔ BackStep l := by
  intro l
  induction l with
  | nil => simp [has_wraparound, np_diff, BackStep]
  | cons a t ih =>
    cases t with
    | nil => simp [has_wraparound, np_diff, BackStep]
    | cons b t' =>
      constructor
      · intro h
        simp only [has_wraparound, np_diff, List.any_cons, Bool.or_eq_true,
          decide_eq_true_eq] at h
        rcases h with h | h
        · exact ⟨0, by simp, by simpa [sub_neg] using h⟩
        · obtain ⟨i, hlen, hlt⟩ := ih.mp (by simp [has_wraparound, h])
          exact ⟨i + 1, by simpa using hlen, by simpa using hlt⟩
      · rintro ⟨i, hlen, hlt⟩
        simp only [has_wraparound, np_diff, List.any_cons, Bool.or_eq_true,
          decide_eq_true_eq]
        cases i with
        | zero =>
          left
          simp only [List.getD_cons_succ, List.getD_cons_zero] at hlt
          simpa [sub_neg] using hlt
        | succ j =>
          right
          have : BackStep (b :: t') := ⟨j, by simpa using hlen, by simpa using hlt⟩
          have := ih.mpr this
          simpa [has_wraparound] using this

/-- Claim C6: for a purely numeric 1-D time sequence with no usable
units reference (and at least one element, since `np.max` rejects an
empty array), the resolver classifies hours-since-midnight exactly when
every value is below 25, seconds-since-midnight exactly when some value
reaches 25 but all stay below 86400, numeric-time (the spec's
NumericUnrecognized) exactly when some value reaches 86400, and flags
`wrapped` exactly when some consecutive pair steps backward. -/
theorem claim6_classification (tv : TimeVar) (info : TimeInfo)
    (h1 : tv.isDatetime = false) (h2 : tv.unitsSince = none) (h3 : tv.isNumeric1D = true)
    (h4 : tv.values ≠ [])
    (hdet : detect_time_var_type tv = some info) :
    (info.type = .hoursSinceMidnight ↔ ∀ x ∈ tv.values, x < 25) ∧
    (info.type = .secondsSinceMidnight ↔
      (¬(∀ x ∈ tv.values, x < 25) ∧ ∀ x ∈ tv.values, x < 86400)) ∧
    (info.type = .numericTime ↔ ∃ x ∈ tv.values, 86400 ≤ x) ∧
    (info.wrapped = true ↔ BackStep tv.values) := by
  rcases tv with ⟨vals, isDt, isNum, us⟩
  simp only at h1 h2 h3 h4 ⊢
  subst h1 h2 h3
  cases vals with
  | nil => exact absurd rfl h4
  | cons v vs =>
    have hinfo : info = ⟨if vs.foldl max v < 25 then .hoursSinceMidnight
        else if vs.foldl max v < 86400 then .secondsSinceMidnight else .numericTime,
        none, has_wraparound (v :: vs)⟩ := by
      simp [detect_time_var_type, np_max] at hdet; exact hdet.symm
    subst hinfo
    have hall25 : vs.foldl max v < 25 ↔ ∀ x ∈ v :: vs, x < 25 := by
      rw [foldl_max_lt_iff]; simp
    have hall86 : vs.foldl max v < 86400 ↔ ∀ x ∈ v :: vs, x < 86400 := by
      rw [foldl_max_lt_iff]; simp
    have hex86 : ¬ vs.foldl max v < 86400 ↔ ∃ x ∈ v :: vs, 86400 ≤ x := by
      constructor
      · intro h
        exact ⟨vs.foldl max v, foldl_max_mem vs v, le_of_not_lt h⟩
      · rintro ⟨x, hx, hxe⟩ hlt
        exact absurd (lt_of_le_of_lt (le_trans hxe (le_foldl_max vs v x hx)) hlt)
          (lt_irrefl _)
    refine ⟨?_, ?_, ?_, has_wraparound_iff (v :: vs)⟩
    · by_cases h25 : vs.foldl max v < 25
      · simp only [if_pos h25]
        exact ⟨fun _ => hall25.mp h25, fun _ => trivial⟩
      · simp only [if_neg h25]
        constructor
        · intro h; split at h <;> exact absurd h (by decide)
        · intro h; exact absurd (hall25.mpr h) h25
    · by_cases h25 : vs.foldl max v < 25
      · simp only [if_pos h25]
        constructor
        · intro h; exact absurd h (by decide)
        · rintro ⟨hna, _⟩; exact absurd (hall25.mp h25) hna
      · by_cases h86 : vs.foldl max v < 86400
        · simp only [if_neg h25, if_pos h86]
          exact ⟨fun _ => ⟨fun hall => h25 (hall25.mpr hall), hall86.mp h86⟩, fun _ => trivial⟩
        · simp only [if_neg h25, if_neg h86]
          constructor
          · intro h; exact absurd h (by decide)
          · rintro ⟨_, hall⟩; exact absurd (hall86.mpr hall) h86
    · by_cases h25 : vs.foldl max v < 25
      · simp only [if_pos h25]
        constructor
        · intro h; exact absurd h (by decide)
        · rintro ⟨x, hxm, hxe⟩
          have hx25 : x < 25 := hall25.mp h25 x hxm
          linarith
      · by_cases h86 : vs.foldl max v < 86400
        · simp only [if_neg h25, if_pos h86]
          constructor
          · intro h; exact absurd h (by decide)
          · intro hx; exact absurd h86 (hex86.mpr hx)
        · simp only [if_neg h25, if_neg h86]
          exact ⟨fun _ => hex86.mp h86, fun _ => trivial⟩

/-- Witness for claim C6: the concrete wrapped hour sequence [3, 1] is
classified hours-since-midnight with the wraparound flag set. -/
theorem claim6_witness :
    ∃ info, detect_time_var_type ⟨[3, 1], false, true, none⟩ = some info ∧
      info.type = .hoursSinceMidnight ∧ info.wrapped = true := by
  have hdet : detect_time_var_type ⟨[3, 1], false, true, none⟩ =
      some ⟨.hoursSinceMidnight, none, true⟩ := by
    norm_num [detect_time_var_type, np_max, max_def, has_wraparound, np_diff]
  have h := claim6_classification ⟨[3, 1], false, true, none⟩
    ⟨.hoursSinceMidnight, none, true⟩ rfl rfl rfl (by simp) hdet
  refine ⟨_, hdet, h.1.mpr ?_, h.2.2.2.mpr ⟨0, by norm_num, ?_⟩⟩
  · intro x hx
    rcases List.mem_cons.mp hx with rfl | hx'
    · norm_num
    · simp at hx'; rw [hx']; norm_num
  · simp only [List.getD_cons_succ, List.getD_cons_zero]
    norm_num

/-- `bop` on equal-length arrays is plain `zipWith`. -/
theorem bop_eq_zipWith {α β γ : Type} (f : α → β → γ) (a : List α) (b : List β)
    (h : a.length = b.length) : bop f a b = some (List.zipWith f a b) := by
  simp [bop, h]

/-- A successful `fancyIndex` has the index list's length. -/
theorem fancyIndex_length {α : Type} [Inhabited α] (l : List α) (idx : List ℕ)
    (out : List α) (h : fancyIndex l idx = some out) : out.length = idx.length := by
  unfold fancyIndex at h
  split at h
  · cases h; simp
  · cases h

/-- Elements of a successful `fancyIndex` come from the source array. -/
theorem fancyIndex_mem {α : Type} [Inhabited α] (l : List α) (idx : List ℕ)
    (out : List α) (h : fancyIndex l idx = some out) (x : α) (hx : x ∈ out) : x ∈ l := by
  unfold fancyIndex at h
  split at h
  · rename_i hall
    cases h
    obtain ⟨i, hi, rfl⟩ := List.mem_map.mp hx
    have : i < l.length := by
      have := List.all_eq_true.mp hall i hi
      exact of_decide_eq_true this
    rw [List.getD_eq_getElem l _ this]
    exact List.getElem_mem this
  · cases h

/-- Mapping positional lookup over `range (length l)` recovers `l`. -/
theorem map_getD_range {α : Type} [Inhabited α] (l : List α) :
    (List.range l.length).map (fun i => l.getD i default) = l := by
  refine List.ext_getElem (by simp) ?_
  intro i h1 h2
  simp only [List.getElem_map, List.getElem_range]
  exact List.getD_eq_getElem l default h2

/-- The argsort index list is a permutation of the index range. -/
theorem argsort_perm (t : List ℤ) : List.Perm (argsort t) (List.range t.length) :=
  List.perm_insertionSort _ _

/-- On a parallel array of the right length, `fancyIndex` by the
argsort indices succeeds and permutes the array. -/
theorem fancyIndex_argsort_perm {α : Type} [Inhabited α] (t : List ℤ) (l : List α)
    (h : l.length = t.length) :
    ∃ out, fancyIndex l (argsort t) = some out ∧ List.Perm out l := by
  have hall : (argsort t).all (fun i => decide (i < l.length)) = true := by
    rw [List.all_eq_true]
    intro i hi
    have : i ∈ List.range t.length := (argsort_perm t).mem_iff.mp hi
    simpa [h] using List.mem_range.mp this
  refine ⟨(argsort t).map (fun i => l.getD i default), by simp [fancyIndex, hall], ?_⟩
  have hperm : List.Perm ((argsort t).map (fun i => l.getD i default))
      ((List.range t.length).map (fun i => l.getD i default)) :=
    (argsort_perm t).map _
  rw [← h] at hperm
  rw [map_getD_range] at hperm
  exact hperm

/-- A successful boolean-mask filter has as many elements as the mask
has `true` entries. -/
theorem maskFilter_some_length {α : Type} (l : List α) (m : List Bool) (out : List α)
    (h : maskFilter l m = some out) : out.length = m.countP (fun b => b) := by
  have aux : ∀ (l : List α) (m : List Bool), l.length = m.length →
      (((l.zip m).filter (fun p => p.2)).map (fun p => p.1)).length =
        m.countP (fun b => b) := by
    intro l
    induction l with
    | nil => intro m hm; cases m <;> simp_all
    | cons a l ih =>
      intro m hm
      cases m with
      | nil => simp at hm
      | cons b m =>
        cases b <;> simp [List.countP_cons, ih m (by simpa using hm)]
  unfold maskFilter at h
  split at h
  · rename_i hlen
    cases h
    exact aux l m hlen
  · cases h

/-- Elements of a successful boolean-mask filter come from the array. -/
theorem maskFilter_mem {α : Type} (l : List α) (m : List Bool) (out : List α)
    (h : maskFilter l m = some out) (x : α) (hx : x ∈ out) : x ∈ l := by
  unfold maskFilter at h
  split at h
  · cases h
    obtain ⟨⟨a, b⟩, hmem, rfl⟩ := List.mem_map.mp hx
    exact (List.of_mem_zip (List.mem_of_mem_filter hmem)).1
  · cases h

/-- Filtering the left column of a conjunctive mask keeps only entries
whose left predicate holds. -/
theorem maskFilter_and_left {α β : Type} (p : α → Bool) (q : β → Bool) :
    ∀ (A : List α) (B : List β) (x : α),
      x ∈ ((A.zip (List.zipWith (fun a b => p a && q b) A B)).filter
        (fun pr => pr.2)).map (fun pr => pr.1) → p x = true := by
  intro A
  induction A with
  | nil => intro B x hx; simp at hx
  | cons a A ih =>
    intro B x hx
    cases B with
    | nil => simp at hx
    | cons b B =>
      simp only [List.zipWith_cons_cons, List.zip_cons_cons, List.filter_cons] at hx
      by_cases hpq : (p a && q b) = true
      · rw [if_pos (by simpa using hpq)] at hx
        simp only [List.map_cons, List.mem_cons] at hx
        rcases hx with rfl | hx
        · have hpq2 : p x = true ∧ q b = true := by simpa using hpq
          exact hpq2.1
        · exact ih B x hx
      · rw [if_neg (by simpa using hpq)] at hx
        exact ih B x hx

/-- Filtering the right column of a conjunctive mask keeps only entries
whose right predicate holds. -/
theorem maskFilter_and_right {α β : Type} (p : α → Bool) (q : β → Bool) :
    ∀ (A : List α) (B : List β) (x : β),
      x ∈ ((B.zip (List.zipWith (fun a b => p a && q b) A B)).filter
        (fun pr => pr.2)).map (fun pr => pr.1) → q x = true := by
  intro A
  induction A with
  | nil => intro B x hx; cases B <;> simp at hx
  | cons a A ih =>
    intro B x hx
    cases B with
    | nil => simp at hx
    | cons b B =>
      simp only [List.zipWith_cons_cons, List.zip_cons_cons, List.filter_cons] at hx
      by_cases hpq : (p a && q b) = true
      · rw [if_pos (by simpa using hpq)] at hx
        simp only [List.map_cons, List.mem_cons] at hx
        rcases hx with rfl | hx
        · have hpq2 : p a = true ∧ q x = true := by simpa using hpq
          exact hpq2.2
        · exact ih B x hx
      · rw [if_neg (by simpa using hpq)] at hx
        exact ih B x hx

/-- When every right entry satisfies its predicate, the conjunctive
mask counts exactly the left hits. -/
theorem countTrue_and_right_true {α β : Type} (p : α → Bool) (q : β → Bool) :
    ∀ (A : List α) (B : List β), A.length = B.length → (∀ b ∈ B, q b = true) →
      (List.zipWith (fun a b => p a && q b) A B).countP (fun x => x) = A.countP p := by
  intro A
  induction A with
  | nil => intro B h _; cases B <;> simp_all
  | cons a A ih =>
    intro B hlen hq
    cases B with
    | nil => simp at hlen
    | cons b B =>
      have hqb : q b = true := hq b (List.mem_cons_self _ _)
      simp only [List.zipWith_cons_cons, List.countP_cons, hqb, Bool.and_true]
      rw [ih B (by simpa using hlen) (fun x hx => hq x (List.mem_cons.mpr (Or.inr hx)))]

/-- Splitting an `Option` count: `isSome` hits plus `isNone` hits cover
the list. -/
theorem countP_isSome_add_isNone :
    ∀ l : List EF, l.countP (fun r => r.isSome) + l.countP (fun r => r.isNone) = l.length := by
  intro l
  induction l with
  | nil => simp
  | cons a l ih =>
    cases a <;> simp [List.countP_cons, ← ih] <;> omega

/-- The explicit value of a successful boolean-mask filter. -/
theorem maskFilter_some_eq {α : Type} (l : List α) (m : List Bool) (out : List α)
    (h : maskFilter l m = some out) :
    out = ((l.zip m).filter (fun pr => pr.2)).map (fun pr => pr.1) := by
  unfold maskFilter at h
  split at h
  · cases h; rfl
  · cases h

/-- `Except.bind` analogue of `exceptBind_ok`. -/
theorem exceptBind_ok_raw {ε α β : Type} (x : Except ε α) (f : α → Except ε β) (b : β) :
    Except.bind x f = .ok b ↔ ∃ a, x = .ok a ∧ f a = .ok b := by
  cases x <;> simp [Except.bind]

/-- Anatomy of a successful `sortFilterPack` run: the five arrays are
reordered by the argsort indices, the conjunctive
finite-reflectivity/positive-altitude mask is built, and each sequence
of the resulting PointCloud is the corresponding masked array. -/
theorem sortFilterPack_ok (fa : FlatArrays) (pc : PointCloud) (h : sortFilterPack fa = .ok pc) :
      ∃ lon lat alt ref time,
        fancyIndex fa.lon (argsort fa.time) = some lon ∧
        fancyIndex fa.lat (argsort fa.time) = some lat ∧
        fancyIndex fa.alt (argsort fa.time) = some alt ∧
        fancyIndex fa.ref (argsort fa.time) = some ref ∧
        fancyIndex fa.time (argsort fa.time) = some time ∧
        ∃ m, bop (· && ·) (ref.map Option.isSome) (alt.map (fun a => decide (0 < a))) = some m ∧
        maskFilter lon m = some pc.lon ∧ maskFilter lat m = some pc.lat ∧
        maskFilter alt m = some pc.alt ∧ maskFilter ref m = some pc.ref ∧
        maskFilter time m = some pc.time := by
  simp only [sortFilterPack, bind] at h
  simp only [exceptBind_ok_raw, orErr_ok, pure, Except.pure, Except.ok.injEq] at h
  obtain ⟨lon, hlon, lat, hlat, alt, halt, ref, href, time, htime, m, hm,
    lon2, hmlon, lat2, hmlat, alt2, hmalt, ref2, hmref, time2, hmtime, hpc⟩ := h
  subst hpc
  exact ⟨lon, lat, alt, ref, time, hlon, hlat, halt, href, htime,
    m, hm, hmlon, hmlat, hmalt, hmref, hmtime⟩

/-- Claim C3: every successfully converted PointCloud keeps its five
sequences at one common length, holds only finite reflectivity values
and only strictly positive altitudes (offending samples are dropped by
the mask, never substituted); and on flattened arrays from a 2x2 grid
whose four reflectivity cells hold exactly one non-finite value, with
every corrected altitude positive, the sort-filter-package stage emits
a PointCloud of length exactly 3. -/
theorem claim3_pointcloud_invariants :
    (∀ (sd cd : ℚ → ℚ) (g : GranuleDS) (pc : PointCloud),
      convert sd cd g = .ok pc →
      (pc.lat.length = pc.time.length ∧ pc.lon.length = pc.time.length ∧
        pc.alt.length = pc.time.length ∧ pc.ref.length = pc.time.length) ∧
      (∀ r ∈ pc.ref, r.isSome = true) ∧ (∀ a ∈ pc.alt, 0 < a)) ∧
    (∀ (fa : FlatArrays) (pc : PointCloud),
      fa.ref.length = 4 → fa.ref.countP (fun r => r.isNone) = 1 →
      fa.ref.length = fa.time.length → (∀ a ∈ fa.alt, 0 < a) →
      sortFilterPack fa = .ok pc → pc.time.length = 3) := by
  have main : ∀ (fa : FlatArrays) (pc : PointCloud), sortFilterPack fa = .ok pc →
      (pc.lat.length = pc.time.length ∧ pc.lon.length = pc.time.length ∧
        pc.alt.length = pc.time.length ∧ pc.ref.length = pc.time.length) ∧
      (∀ r ∈ pc.ref, r.isSome = true) ∧ (∀ a ∈ pc.alt, 0 < a) ∧
      (fa.ref.length = fa.time.length → (∀ a ∈ fa.alt, 0 < a) →
        pc.time.length = fa.ref.countP (fun r => r.isSome)) := by
    intro fa pc h
    obtain ⟨lon, lat, alt, ref, time, hlon, hlat, halt, href, htime, m, hm,
      hmlon, hmlat, hmalt, hmref, hmtime⟩ := sortFilterPack_ok fa pc h
    have hreflen : ref.length = (argsort fa.time).length := fancyIndex_length _ _ _ href
    have haltlen : alt.length = (argsort fa.time).length := fancyIndex_length _ _ _ halt
    have hmapslen : (ref.map Option.isSome).length = (alt.map (fun a => decide (0 < a))).length := by
      simp [hreflen, haltlen]
    have hmz : m = List.zipWith (fun (r : EF) (a : ℚ) => r.isSome && decide (0 < a)) ref alt := by
      rw [bop_eq_zipWith _ _ _ hmapslen] at hm
      have := Option.some.inj hm
      rw [← this, List.zipWith_map]
    subst hmz
    refine ⟨?_, ?_, ?_, ?_⟩
    · have l1 := maskFilter_some_length _ _ _ hmlat
      have l2 := maskFilter_some_length _ _ _ hmlon
      have l3 := maskFilter_some_length _ _ _ hmalt
      have l4 := maskFilter_some_length _ _ _ hmref
      have l5 := maskFilter_some_length _ _ _ hmtime
      omega
    · intro r hr
      have heq := maskFilter_some_eq _ _ _ hmref
      rw [heq] at hr
      exact maskFilter_and_left Option.isSome (fun a => decide (0 < a)) ref alt r hr
    · intro a ha
      have heq := maskFilter_some_eq _ _ _ hmalt
      rw [heq] at ha
      have := maskFilter_and_right Option.isSome (fun a => decide (0 < a)) ref alt a ha
      exact of_decide_eq_true this
    · intro hlen hpos
      obtain ⟨ref', href', hperm⟩ := fancyIndex_argsort_perm fa.time fa.ref hlen
      rw [href] at href'
      have hrefeq : ref' = ref := (Option.some.inj href').symm
      have hperm2 : List.Perm ref fa.ref := by rw [← hrefeq]; exact hperm
      have hposall : ∀ b ∈ alt, (fun a => decide (0 < a)) b = true := by
        intro b hb
        exact decide_eq_true (hpos b (fancyIndex_mem _ _ _ halt b hb))
      have hcnt := countTrue_and_right_true Option.isSome (fun a => decide (0 < a))
        ref alt (by omega) hposall
      have l5 := maskFilter_some_length _ _ _ hmtime
      rw [l5, hcnt, hperm2.countP_eq]
  constructor
  · intro sd cd g pc h
    rw [convert] at h
    rw [exceptBind_ok] at h
    obtain ⟨fa, _, hfa⟩ := h
    exact ⟨(main fa pc hfa).1, (main fa pc hfa).2.1, (main fa pc hfa).2.2.1⟩
  · intro fa pc h4 h1 hlen hpos h
    have hmain := (main fa pc h).2.2.2 hlen hpos
    rw [hmain]
    have hsum := countP_isSome_add_isNone fa.ref
    rw [h4] at hsum
    rw [h1] at hsum
    omega

/-- Witness for claim C3: a concrete one-sample/two-bin granule whose
second reflectivity cell is non-finite converts to a single-point
cloud satisfying the invariants, and a concrete flattened 2x2 grid
with one NaN cell and positive altitudes packs to exactly 3 points. -/
theorem claim3_witness :
    (∃ pc, convert (fun _ => 0) (fun _ => 1)
        ⟨[5], some [[some 2, none]], some [1], some [2], some [300], none,
          some [0], some [0], some [0], some [10, 20]⟩ = .ok pc ∧
      pc.lat.length = pc.time.length ∧ (∀ r ∈ pc.ref, r.isSome = true) ∧
      ∀ a ∈ pc.alt, 0 < a) ∧
    (∃ pc, sortFilterPack ⟨[0, 0, 0, 0], [1, 1, 1, 1], [2, 2, 2, 2], [10, 20, 30, 40],
        [some 1, none, some 2, some 3]⟩ = .ok pc ∧ pc.time.length = 3) := by
  have hconv : convert (fun _ => 0) (fun _ => 1)
      ⟨[5], some [[some 2, none]], some [1], some [2], some [300], none,
        some [0], some [0], some [0], some [10, 20]⟩ =
      .ok ⟨[1], [2], [290], [some 2], [5]⟩ := by
    norm_num [convert, buildFlatArrays, sortFilterPack, reqVar, getAltVar, orErr, bop,
      np_repeat, np_tile, argsort, idxLe, fancyIndex, maskFilter, bind, Except.bind,
      pure, Except.pure, List.replicate, List.insertionSort, List.orderedInsert]
  have hpk : sortFilterPack ⟨[0, 0, 0, 0], [1, 1, 1, 1], [2, 2, 2, 2], [10, 20, 30, 40],
      [some 1, none, some 2, some 3]⟩ =
      .ok ⟨[2, 2, 2], [1, 1, 1], [10, 30, 40], [some 1, some 2, some 3], [0, 0, 0]⟩ := by
    norm_num [sortFilterPack, orErr, bop, argsort, idxLe, fancyIndex, maskFilter, bind,
      Except.bind, pure, Except.pure, List.insertionSort, List.orderedInsert]
  have h3 := claim3_pointcloud_invariants
  refine ⟨⟨_, hconv, ?_, ?_, ?_⟩, ⟨_, hpk, ?_⟩⟩
  · exact (h3.1 _ _ _ _ hconv).1.1
  · exact (h3.1 _ _ _ _ hconv).2.1
  · exact (h3.1 _ _ _ _ hconv).2.2
  · refine h3.2 _ _ (by decide) (by decide) (by decide) ?_ hpk
    intro a ha
    rcases List.mem_cons.mp ha with rfl | ha
    · norm_num
    · rcases List.mem_cons.mp ha with rfl | ha
      · norm_num
      · rcases List.mem_cons.mp ha with rfl | ha
        · norm_num
        · simp at ha; rw [ha]; norm_num

/-- Claim C8 (refuted on its ShapeMismatch half): `granuleLatMismatch`
has a per-sample `lat` vector of length 1 against a reflectivity grid
with 2 along-track samples — a shape mismatch — yet `convert` raises
nothing: numpy length-1 broadcasting silently stretches `lat` across
both samples and a complete PointCloud is returned. -/
theorem claim8_shape_mismatch_silent :
    ∃ (l : List ℚ) (grid : List (List EF)),
      granuleLatMismatch.lat = some l ∧ granuleLatMismatch.ref = some grid ∧
      l.length ≠ grid.length ∧
      convert (fun _ => 0) (fun _ => 1) granuleLatMismatch =
        .ok ⟨[45, 45], [100, 101], [993, 993], [some 1, some 2], [10, 20]⟩ := by
  refine ⟨[45], [[some 1], [some 2]], rfl, rfl, by norm_num, ?_⟩
  norm_num [granuleLatMismatch, convert, buildFlatArrays, sortFilterPack, reqVar, getAltVar,
    orErr, bop, np_repeat, np_tile, argsort, idxLe, fancyIndex, maskFilter, bind, Except.bind,
    pure, Except.pure, List.replicate, List.insertionSort, List.orderedInsert]
